import Mathlib

/-!
Shallow embedding of the watermark editor core of `src/src/App.tsx`
(qian-xiang/qianxiang-watermark), together with theorems settling the
behavioural claims about the store, the compositor and the pointer mapper.

Conventions of the embedding:
* TypeScript numbers are modelled as `ℚ` (exact arithmetic; the editor performs
  no float-specific operations in the claims considered here).
* React state setters are modelled by explicit state passing.  Within one event
  handler, reads of `useState` values see the values committed at render time,
  while the functional updaters (`setWatermarks (prev => ...)`) compose in call
  order; the handler definitions below follow that discipline.
* JavaScript truthiness matters in three places of the source
  (`if (!selectedId)`, `if (!image || !selectedId)` and `... ?.id || null`):
  the empty string is falsy, and the embedding reproduces that.
* `ctx.measureText(...).width` is an opaque platform metric; it is modelled by
  an arbitrary function `measure : ℚ → String → ℚ` of the current font size
  (the context font is always `${fontSize}px Inter, sans-serif`, so the size
  determines the font) and the measured text.
-/

namespace WatermarkApp

/-- The `Position` union type of App.tsx (line 24). -/
inductive Position where
  | topLeft
  | topCenter
  | topRight
  | center
  | bottomLeft
  | bottomCenter
  | bottomRight
  | custom
deriving DecidableEq, Repr

/-- The `Watermark` record of App.tsx (lines 26–36). -/
structure Watermark where
  id : String
  text : String
  fontSize : ℚ
  color : String
  opacity : ℚ
  position : Position
  customX : ℚ
  customY : ℚ
  rotation : ℚ
deriving DecidableEq, Repr

/-- The `Partial<Watermark>` record as it is actually used by the call sites of
`updateSelectedWatermark`: every call site passes a subset of the non-`id`
fields, never `id`.  A field that is `none` is absent from the partial
record. -/
structure PartialWatermark where
  text : Option String := none
  fontSize : Option ℚ := none
  color : Option String := none
  opacity : Option ℚ := none
  position : Option Position := none
  customX : Option ℚ := none
  customY : Option ℚ := none
  rotation : Option ℚ := none
deriving DecidableEq, Repr

/-- The JS spread `{ ...w, ...updates }` of App.tsx line 70: fields present in
`updates` override the fields of `w`, absent fields keep their value. -/
def applySpread (w : Watermark) (u : PartialWatermark) : Watermark :=
  { id := w.id
    text := u.text.getD w.text
    fontSize := u.fontSize.getD w.fontSize
    color := u.color.getD w.color
    opacity := u.opacity.getD w.opacity
    position := u.position.getD w.position
    customX := u.customX.getD w.customX
    customY := u.customY.getD w.customY
    rotation := u.rotation.getD w.rotation }

/-- The store state: the `watermarks` list and the `selectedId` of App.tsx
(lines 40–53). -/
structure SessionState where
  watermarks : List Watermark
  selectedId : Option String
deriving DecidableEq, Repr

/-- JS truthiness of a `string | null` value: `null` and the empty string are
falsy, every other string is truthy. -/
def truthyId : Option String → Bool
  | none => false
  | some s => if s = "" then false else true

/-- Function `updateSelectedWatermark` of App.tsx (lines 68–71).  The guard
`if (!selectedId) return` bails out when the selection is `null` or the empty
string (JS falsiness); otherwise every entry whose id equals the selection is
replaced by the spread `{ ...w, ...updates }`. -/
def updateSelectedWatermark (u : PartialWatermark) (s : SessionState) : SessionState :=
  match s.selectedId with
  | none => s
  | some sid =>
    if sid = "" then s
    else { s with watermarks := s.watermarks.map fun w => if w.id = sid then applySpread w u else w }

/-- The fresh watermark built by `addWatermark` of App.tsx (lines 75–85); the
generated id (`Math.random().toString(36).substr(2, 9)`) is passed in as an
external input, since the embedding has no randomness. -/
def newWatermark (newId : String) : Watermark :=
  { id := newId
    text := "新水印"
    fontSize := 40
    color := "#ffffff"
    opacity := 1/2
    position := Position.center
    customX := 50
    customY := 50
    rotation := 0 }

/-- Function `addWatermark` of App.tsx (lines 73–88): appends the fresh watermark and
selects its id.  The code performs no check that `newId` differs from the ids
already present. -/
def addWatermark (newId : String) (s : SessionState) : SessionState :=
  { watermarks := s.watermarks ++ [newWatermark newId]
    selectedId := some newId }

/-- The JS expression `o?.id || null` of App.tsx line 93: `undefined` and an
empty-string id are falsy, so both collapse to `null`. -/
def idOrNull : Option Watermark → Option String
  | none => none
  | some w => if w.id = "" then none else some w.id

/-- Function `deleteWatermark` of App.tsx (lines 90–95): filters the entry out; if the
deleted id was selected, the new selection is
`watermarks.find(w => w.id !== id)?.id || null`, evaluated over the pre-delete
list (the stale `watermarks` closure). -/
def deleteWatermark (id : String) (s : SessionState) : SessionState :=
  { watermarks := s.watermarks.filter fun w => w.id ≠ id
    selectedId :=
      if s.selectedId = some id then idOrNull (s.watermarks.find? fun w => w.id ≠ id)
      else s.selectedId }

/-- The call `setSelectedId(wm.id)` as invoked from the watermark list (App.tsx
line 282); the UI only ever passes the id of a rendered entry. -/
def selectWatermark (id : String) (s : SessionState) : SessionState :=
  { s with selectedId := some id }

/-- The initial watermark of App.tsx lines 41–51. -/
def defaultWatermark : Watermark :=
  { id := "1"
    text := "水印文字"
    fontSize := 40
    color := "#ffffff"
    opacity := 1/2
    position := Position.bottomRight
    customX := 50
    customY := 50
    rotation := 0 }

/-- The initial store state of App.tsx lines 40–53. -/
def initialState : SessionState :=
  { watermarks := [defaultWatermark], selectedId := some "1" }

/-! ### Compositor model: the 2D canvas context and `drawCanvas` -/

/-- Values of `ctx.textAlign`; the canvas default is `start`. -/
inductive TextAlign where
  | start
  | left
  | center
  | right
deriving DecidableEq, Repr

/-- Values of `ctx.textBaseline`; the canvas default is `alphabetic`. -/
inductive TextBaseline where
  | alphabetic
  | middle
deriving DecidableEq, Repr

/-- One primitive transform applied to the context.  The accumulated context
transform is the list of primitives applied so far, in application order.
`rotate deg` stands for `ctx.rotate(deg * Math.PI / 180)` (App.tsx line 223);
the angle is kept in degrees because the radian conversion is a fixed scalar
factor. -/
inductive XformOp where
  | translate (x y : ℚ)
  | rotate (deg : ℚ)
deriving DecidableEq, Repr

/-- The mutable drawing-state properties of a canvas 2D context that
`drawCanvas` touches.  `font` records the font size `n` of the assigned font
string `${n}px Inter, sans-serif` (the family never varies). -/
structure CtxProps where
  font : ℚ
  fillStyle : String
  globalAlpha : ℚ
  textAlign : TextAlign
  textBaseline : TextBaseline
  transform : List XformOp
deriving DecidableEq, Repr

/-- A canvas 2D context: current properties plus the `save`/`restore` stack. -/
structure Ctx where
  props : CtxProps
  stack : List CtxProps
deriving DecidableEq, Repr

/-- One `ctx.fillText` invocation, recorded with the context state in force at
the moment of the call.  `x`/`y` are the arguments of `fillText` (always
`(0, 0)` in App.tsx line 224). -/
structure PaintCall where
  text : String
  x : ℚ
  y : ℚ
  font : ℚ
  fillStyle : String
  alpha : ℚ
  align : TextAlign
  baseline : TextBaseline
  transform : List XformOp
deriving DecidableEq, Repr

/-- The anchor-point `switch` of App.tsx lines 178–219: given the text
measurer, the canvas dimensions and a watermark, it returns the anchor `(x, y)`
and the final `textAlign`.  The source first sets `textAlign = center`
(line 174) and then overrides it to `left`/`right` inside the left/right
anchor cases; the third component is that final value.  `padding` is
`wm.fontSize` (line 180), and `ctx.measureText` runs with the font already set
to `wm.fontSize` (line 171). -/
def anchorPoint (measure : ℚ → String → ℚ) (cw ch : ℚ) (wm : Watermark) :
    ℚ × ℚ × TextAlign :=
  let padding := wm.fontSize
  match wm.position with
  | Position.topLeft =>
      (padding + measure wm.fontSize wm.text / 2, padding, TextAlign.left)
  | Position.topCenter => (cw / 2, padding, TextAlign.center)
  | Position.topRight =>
      (cw - padding - measure wm.fontSize wm.text / 2, padding, TextAlign.right)
  | Position.center => (cw / 2, ch / 2, TextAlign.center)
  | Position.bottomLeft =>
      (padding + measure wm.fontSize wm.text / 2, ch - padding, TextAlign.left)
  | Position.bottomCenter => (cw / 2, ch - padding, TextAlign.center)
  | Position.bottomRight =>
      (cw - padding - measure wm.fontSize wm.text / 2, ch - padding, TextAlign.right)
  | Position.custom => (wm.customX / 100 * cw, wm.customY / 100 * ch, TextAlign.center)

/-- The body of the `watermarks.forEach` loop of App.tsx lines 167–226 for one
watermark: `save`, set the style properties, compute the anchor, `translate`,
`rotate`, `fillText(text, 0, 0)`, `restore`.  Returns the context after
`restore` and the recorded paint call. -/
def drawWatermark (measure : ℚ → String → ℚ) (cw ch : ℚ) (c : Ctx) (wm : Watermark) :
    Ctx × PaintCall :=
  let saved : Ctx := { props := c.props, stack := c.props :: c.stack }
  let axy := anchorPoint measure cw ch wm
  let p : CtxProps :=
    { font := wm.fontSize
      fillStyle := wm.color
      globalAlpha := wm.opacity
      textAlign := axy.2.2
      textBaseline := TextBaseline.middle
      transform := saved.props.transform ++
        [XformOp.translate axy.1 axy.2.1, XformOp.rotate wm.rotation] }
  let call : PaintCall :=
    { text := wm.text
      x := 0
      y := 0
      font := p.font
      fillStyle := p.fillStyle
      alpha := p.globalAlpha
      align := p.textAlign
      baseline := p.textBaseline
      transform := p.transform }
  let restored : Ctx :=
    match saved.stack with
    | [] => { props := p, stack := [] }
    | q :: rest => { props := q, stack := rest }
  (restored, call)

/-- The `watermarks.forEach` loop of App.tsx lines 167–226, threading the
context through the per-watermark draws and collecting the paint calls in
order. -/
def drawAll (measure : ℚ → String → ℚ) (cw ch : ℚ) :
    List Watermark → Ctx → Ctx × List PaintCall
  | [], c => (c, [])
  | wm :: rest, c =>
    let r1 := drawWatermark measure cw ch c wm
    let r2 := drawAll measure cw ch rest r1.1
    (r2.1, r1.2 :: r2.2)

/-- A decoded source image: pixel dimensions plus an opaque tag standing for
the decoded pixel data. -/
structure SourceImage where
  width : ℚ
  height : ℚ
  data : ℕ
deriving DecidableEq, Repr

/-- The output of one `drawCanvas` pass: the canvas is resized to the image
dimensions (App.tsx lines 160–161), the base image is blitted unscaled at
`(0, 0)` (line 164), and the watermark texts are painted on top in list
order. -/
structure RenderOutput where
  width : ℚ
  height : ℚ
  base : SourceImage
  calls : List PaintCall
deriving DecidableEq, Repr

/-- The context state after `canvas.width = image.width` (App.tsx line 160):
assigning the bitmap dimensions resets the 2D context to its defaults —
identity transform, alpha 1, `10px sans-serif`, `start`/`alphabetic` text
settings, empty save stack. -/
def freshCtx : Ctx :=
  { props :=
      { font := 10
        fillStyle := "#000000"
        globalAlpha := 1
        textAlign := TextAlign.start
        textBaseline := TextBaseline.alphabetic
        transform := [] }
    stack := [] }

/-- Function `drawCanvas` of App.tsx (lines 152–227).  The guard
`if (!canvas || !image) return` makes the render a no-op (no output, no state
change, no exception) when no image is loaded; the canvas element itself is
assumed mounted.  Otherwise the canvas takes the image dimensions, the image is
blitted, and every watermark is drawn over it. -/
def drawCanvas (measure : ℚ → String → ℚ) (image : Option SourceImage)
    (watermarks : List Watermark) : Option RenderOutput :=
  match image with
  | none => none
  | some img =>
    some
      { width := img.width
        height := img.height
        base := img
        calls := (drawAll measure img.width img.height watermarks freshCtx).2 }

/-- The render of a bare source image: base blit only, no paint calls.  This is
what "output equals the plain image" denotes. -/
def plainRender (img : SourceImage) : RenderOutput :=
  { width := img.width, height := img.height, base := img, calls := [] }

/-! ### Pointer-to-position mapper and drag handlers -/

/-- The result of `canvas.getBoundingClientRect()`: the displayed rectangle of
the canvas element in client coordinates. -/
structure RectGeom where
  left : ℚ
  top : ℚ
  width : ℚ
  height : ℚ
deriving DecidableEq, Repr

/-- Function `getCanvasCoordinates` of App.tsx (lines 98–114), in the case where the
canvas is mounted: subtract the rectangle origin from the client coordinates
and multiply by the per-axis scale `canvas.size / rect.size` between the
internal bitmap resolution `(cw, ch)` and the displayed size. -/
def getCanvasCoordinates (cw ch : ℚ) (rect : RectGeom) (clientX clientY : ℚ) : ℚ × ℚ :=
  let scaleX := cw / rect.width
  let scaleY := ch / rect.height
  ((clientX - rect.left) * scaleX, (clientY - rect.top) * scaleY)

/-- The percentage computation of `handleMove` (App.tsx lines 126–130):
internal coordinates from `getCanvasCoordinates`, divided by the internal
canvas size, times 100, clamped to `[0, 100]` by
`Math.max(0, Math.min(100, ...))`. -/
def handleMovePercent (cw ch : ℚ) (rect : RectGeom) (clientX clientY : ℚ) : ℚ × ℚ :=
  let xy := getCanvasCoordinates cw ch rect clientX clientY
  (max 0 (min 100 (xy.1 / cw * 100)), max 0 (min 100 (xy.2 / ch * 100)))

/-- The UI state the drag handlers read: the loaded image (if any), the
`isDragging` flag and the store state.  The canvas element is mounted whenever
an image is shown, so its geometry is passed separately. -/
structure UIState where
  image : Option SourceImage
  isDragging : Bool
  session : SessionState
deriving DecidableEq, Repr

/-- Function `handleMove` of App.tsx (lines 123–133): bail out unless a drag is in
progress, an image is loaded and the selection is truthy (non-null, non-empty
string); otherwise write the clamped percentages into the selected watermark's
`customX`/`customY`. -/
def handleMove (cw ch : ℚ) (rect : RectGeom) (clientX clientY : ℚ) (u : UIState) : UIState :=
  if u.isDragging = false ∨ u.image = none ∨ truthyId u.session.selectedId = false then u
  else
    let p := handleMovePercent cw ch rect clientX clientY
    { u with session := updateSelectedWatermark { customX := some p.1, customY := some p.2 } u.session }

/-- Function `handleStart` of App.tsx (lines 116–121): bail out unless an image is
loaded and the selection is truthy; otherwise queue `setIsDragging(true)`,
force the selected watermark's `position` to `custom`, and invoke
`handleMove`.  React semantics: `setIsDragging(true)` only commits after the
handler returns, so the inner `handleMove` still observes the render-time
`isDragging`; the functional `setWatermarks` updates compose in call order. -/
def handleStart (cw ch : ℚ) (rect : RectGeom) (clientX clientY : ℚ) (u : UIState) : UIState :=
  if u.image = none ∨ truthyId u.session.selectedId = false then u
  else
    { handleMove cw ch rect clientX clientY
        { u with session := updateSelectedWatermark { position := some Position.custom } u.session }
      with isDragging := true }

/-! ### Session transition system -/

/-- The selection invariant of the spec: a non-none selection refers to an
entry currently present in the collection. -/
def SelInv (s : SessionState) : Prop :=
  ∀ id, s.selectedId = some id → ∃ w ∈ s.watermarks, w.id = id

/-- No two entries of the collection share an id. -/
def NodupIds (s : SessionState) : Prop :=
  (s.watermarks.map fun w => w.id).Nodup

/-- One store operation, as the UI invokes it.  The id of `add` is the
externally produced random string; `select` is only ever invoked with the id
of a listed entry (App.tsx line 282), which the hypothesis records. -/
inductive Step (s : SessionState) : SessionState → Prop
  | add (newId : String) : Step s (addWatermark newId s)
  | select (id : String) (h : ∃ w ∈ s.watermarks, w.id = id) :
      Step s (selectWatermark id s)
  | update (u : PartialWatermark) : Step s (updateSelectedWatermark u s)
  | remove (id : String) : Step s (deleteWatermark id s)

/-- Store states reachable from the initial session by store operations. -/
inductive Reachable : SessionState → Prop
  | init : Reachable initialState
  | step {s t : SessionState} : Reachable s → Step s t → Reachable t

/-- Store operations under the additional assumption that every generated id
differs from all ids already present (the code itself never checks this). -/
inductive StepFresh (s : SessionState) : SessionState → Prop
  | add (newId : String) (h : ∀ w ∈ s.watermarks, w.id ≠ newId) :
      StepFresh s (addWatermark newId s)
  | select (id : String) : StepFresh s (selectWatermark id s)
  | update (u : PartialWatermark) : StepFresh s (updateSelectedWatermark u s)
  | remove (id : String) : StepFresh s (deleteWatermark id s)

/-- Reachability under collision-free id generation. -/
inductive ReachableFresh : SessionState → Prop
  | init : ReachableFresh initialState
  | step {s t : SessionState} : ReachableFresh s → StepFresh s t → ReachableFresh t

/-! ### Concrete instances used by witnesses and counterexamples -/

/-- A concrete text measurer: width proportional to font size and character
count. -/
def mMeas : ℚ → String → ℚ := fun fs t => fs * t.length

/-- A watermark with id `"a"`. -/
def wA : Watermark :=
  { id := "a", text := "alpha", fontSize := 40, color := "#ffffff", opacity := 1/2,
    position := Position.center, customX := 50, customY := 50, rotation := 0 }

/-- A watermark with id `"x"`. -/
def wX : Watermark :=
  { id := "x", text := "ex", fontSize := 40, color := "#ffffff", opacity := 1/2,
    position := Position.center, customX := 50, customY := 50, rotation := 0 }

/-- A watermark with id `"s"`. -/
def wS : Watermark :=
  { id := "s", text := "sel", fontSize := 40, color := "#ffffff", opacity := 1/2,
    position := Position.center, customX := 50, customY := 50, rotation := 0 }

/-- A watermark whose id is the empty string — a legal value of the data
model (`id` is an arbitrary string). -/
def wBlank : Watermark :=
  { id := "", text := "a", fontSize := 40, color := "#ffffff", opacity := 1/2,
    position := Position.center, customX := 50, customY := 50, rotation := 0 }

/-- The watermark of the C1 scenario: `{text:"A", position:"bottom-right",
fontSize:40}`. -/
def scenarioWM : Watermark :=
  { id := "s1", text := "A", fontSize := 40, color := "#ffffff", opacity := 1/2,
    position := Position.bottomRight, customX := 50, customY := 50, rotation := 0 }

/-- A bottom-left watermark used to instantiate the edge-anchor rule. -/
def wmBL : Watermark :=
  { id := "b", text := "ab", fontSize := 40, color := "#ffffff", opacity := 1/2,
    position := Position.bottomLeft, customX := 50, customY := 50, rotation := 0 }

/-- Two-item session whose selection is the entry `"s"`; the other entry has
id `"x"`. -/
def twoItemState : SessionState :=
  { watermarks := [wS, wX], selectedId := some "s" }

/-- Session whose selection `"a"` is about to be deleted while the other
remaining entry has the empty-string id. -/
def sBlankFirst : SessionState :=
  { watermarks := [wA, wBlank], selectedId := some "a" }

/-- Session whose selection is the empty-string id of a present entry. -/
def sBlankSel : SessionState :=
  { watermarks := [wBlank], selectedId := some "" }

/-- A partial update that only changes the text. -/
def updText : PartialWatermark := { text := some "b" }

/-- Single-item session selecting `"a"`. -/
def sSelA : SessionState := { watermarks := [wA], selectedId := some "a" }

/-- An 800×600 source image. -/
def imgEx : SourceImage := { width := 800, height := 600, data := 0 }

/-- A canvas displayed 1:1 at client origin. -/
def rectUnit : RectGeom := { left := 0, top := 0, width := 100, height := 100 }

/-- The C7 scenario rectangle: 400×300 displayed size at client origin. -/
def rectHalf : RectGeom := { left := 0, top := 0, width := 400, height := 300 }

/-- An 800×600 displayed rectangle at client origin. -/
def rectFull : RectGeom := { left := 0, top := 0, width := 800, height := 600 }

/-- UI state with an image, idle drag flag, and the empty-string id selected. -/
def uBlankSel : UIState :=
  { image := some imgEx, isDragging := false, session := sBlankSel }

/-- UI state with an image, idle drag flag, and selection `"a"`. -/
def uSelA : UIState :=
  { image := some imgEx, isDragging := false, session := sSelA }

/-! ### Helper lemmas -/

/-- Searching with `find?` returns the head of the filtered list. -/
theorem find?_eq_head?_filter (p : α → Bool) (l : List α) :
    l.find? p = (l.filter p).head? := by
  induction l with
  | nil => rfl
  | cons a t ih =>
    rw [List.find?_cons, List.filter_cons]
    cases hp : p a with
    | true => simp
    | false => simp

/-- The spread update never changes the id. -/
theorem applySpread_id (w : Watermark) (u : PartialWatermark) :
    (applySpread w u).id = w.id := rfl

/-- Updating entries in place preserves the list of ids. -/
theorem ids_map_update (l : List Watermark) (sid : String) (u : PartialWatermark) :
    ((l.map fun w => if w.id = sid then applySpread w u else w).map fun w => w.id)
      = l.map fun w => w.id := by
  induction l with
  | nil => rfl
  | cons a t ih =>
    by_cases h : a.id = sid <;> simp [h, ih, applySpread_id]

/-- A position-only update preserves every entry's custom coordinates. -/
theorem customs_map_update_position (l : List Watermark) (sid : String) :
    ((l.map fun w =>
        if w.id = sid then applySpread w { position := some Position.custom } else w).map
      fun w => (w.customX, w.customY))
      = l.map fun w => (w.customX, w.customY) := by
  induction l with
  | nil => rfl
  | cons a t ih =>
    by_cases h : a.id = sid
    · simp only [List.map_cons, if_pos h]
      rw [ih]
      rfl
    · simp only [List.map_cons, if_neg h]
      rw [ih]

/-- If no entry matches the targeted id, the in-place update is the
identity. -/
theorem map_update_eq_self (l : List Watermark) (sid : String) (u : PartialWatermark)
    (h : ∀ w ∈ l, w.id ≠ sid) :
    (l.map fun w => if w.id = sid then applySpread w u else w) = l := by
  induction l with
  | nil => rfl
  | cons a t ih =>
    simp only [List.map_cons]
    rw [if_neg (h a (by simp)), ih fun w hw => h w (by simp [hw])]

/-- Truthiness of the selection, unfolded. -/
theorem truthyId_eq_true_iff (o : Option String) :
    truthyId o = true ↔ ∃ sid, o = some sid ∧ sid ≠ "" := by
  cases o with
  | none => simp [truthyId]
  | some s =>
    by_cases h : s = "" <;> simp [truthyId, h]

/-- The clamp `max 0 (min 100 t)` collapses to `0` on nonpositive input. -/
theorem clamp_eq_zero {t : ℚ} (h : t ≤ 0) : max 0 (min 100 t) = 0 := by
  rw [min_eq_right (le_trans h (by norm_num))]
  exact max_eq_left h

/-- The clamp `max 0 (min 100 t)` collapses to `100` on input at least 100. -/
theorem clamp_eq_hundred {t : ℚ} (h : 100 ≤ t) : max 0 (min 100 t) = 100 := by
  rw [min_eq_left h]
  exact max_eq_right (by norm_num)

/-- The clamp always lands in `[0, 100]`. -/
theorem clamp_bounds (t : ℚ) : 0 ≤ max 0 (min 100 t) ∧ max 0 (min 100 t) ≤ 100 :=
  ⟨le_max_left 0 _, max_le (by norm_num) (min_le_left 100 t)⟩

/-- One `drawWatermark` call restores the context it started from. -/
theorem drawWatermark_fst (measure : ℚ → String → ℚ) (cw ch : ℚ) (c : Ctx)
    (wm : Watermark) : (drawWatermark measure cw ch c wm).1 = c := rfl

/-- The draw loop leaves the context where it started. -/
theorem drawAll_fst (measure : ℚ → String → ℚ) (cw ch : ℚ) (l : List Watermark)
    (c : Ctx) : (drawAll measure cw ch l c).1 = c := by
  induction l generalizing c with
  | nil => rfl
  | cons wm rest ih =>
    simp [drawAll, drawWatermark_fst, ih]

/-- Every paint call of the loop is produced from the same starting context:
the per-watermark draws are independent of each other. -/
theorem drawAll_snd (measure : ℚ → String → ℚ) (cw ch : ℚ) (l : List Watermark)
    (c : Ctx) :
    (drawAll measure cw ch l c).2
      = l.map fun wm => (drawWatermark measure cw ch c wm).2 := by
  induction l generalizing c with
  | nil => rfl
  | cons wm rest ih =>
    simp [drawAll, drawWatermark_fst, ih]

/-- Alpha of a single paint call is the watermark's own opacity. -/
theorem drawWatermark_alpha (measure : ℚ → String → ℚ) (cw ch : ℚ) (c : Ctx)
    (wm : Watermark) : ((drawWatermark measure cw ch c wm).2).alpha = wm.opacity := rfl

/-- Transform of a single paint call: the starting transform extended by the
watermark's own translate/rotate. -/
theorem drawWatermark_transform (measure : ℚ → String → ℚ) (cw ch : ℚ) (c : Ctx)
    (wm : Watermark) :
    ((drawWatermark measure cw ch c wm).2).transform
      = c.props.transform ++
        [XformOp.translate (anchorPoint measure cw ch wm).1 (anchorPoint measure cw ch wm).2.1,
         XformOp.rotate wm.rotation] := rfl

/-- Shape analysis of `updateSelectedWatermark`: either it is the identity
(selection none or the empty string) or it maps the merge over the list. -/
theorem updateSelectedWatermark_eq (u : PartialWatermark) (s : SessionState) :
    updateSelectedWatermark u s = s ∨
    ∃ sid, s.selectedId = some sid ∧ sid ≠ "" ∧
      updateSelectedWatermark u s
        = { s with watermarks :=
              s.watermarks.map fun w => if w.id = sid then applySpread w u else w } := by
  rcases hsel : s.selectedId with _ | sid
  · left
    simp [updateSelectedWatermark, hsel]
  · by_cases he : sid = ""
    · left
      simp [updateSelectedWatermark, hsel, he]
    · right
      exact ⟨sid, rfl, he, by simp [updateSelectedWatermark, hsel, he]⟩

/-- Each store operation preserves the selection invariant. -/
theorem step_preserves_selInv {s t : SessionState} (hs : SelInv s) (hst : Step s t) :
    SelInv t := by
  cases hst with
  | add newId =>
    intro id hid
    have hid2 : newId = id := by simpa [addWatermark] using hid
    subst hid2
    exact ⟨newWatermark newId, by simp [addWatermark], rfl⟩
  | select id h =>
    intro i hi
    have hi2 : id = i := by simpa [selectWatermark] using hi
    subst hi2
    obtain ⟨w, hw, hwid⟩ := h
    exact ⟨w, hw, hwid⟩
  | update u =>
    rcases updateSelectedWatermark_eq u s with heq | ⟨sid, hsel, hne, heq⟩
    · rw [heq]
      exact hs
    · intro i hi
      rw [heq] at hi
      have hi2 : s.selectedId = some i := hi
      rw [hsel] at hi2
      obtain rfl : sid = i := Option.some.inj hi2
      obtain ⟨w, hw, hwid⟩ := hs sid hsel
      rw [heq]
      refine ⟨applySpread w u, ?_, by rw [applySpread_id, hwid]⟩
      show applySpread w u ∈ s.watermarks.map fun w => if w.id = sid then applySpread w u else w
      rw [List.mem_map]
      exact ⟨w, hw, by simp [hwid]⟩
  | remove id =>
    intro i hi
    by_cases hsel : s.selectedId = some id
    · have hi2 : idOrNull (s.watermarks.find? fun w => w.id ≠ id) = some i := by
        simpa [deleteWatermark, hsel] using hi
      rcases hf : s.watermarks.find? fun w => w.id ≠ id with _ | w
      · rw [hf] at hi2
        cases hi2
      · rw [hf] at hi2
        by_cases hb : w.id = ""
        · simp [idOrNull, hb] at hi2
        · simp only [idOrNull, if_neg hb] at hi2
          obtain rfl : w.id = i := Option.some.inj hi2
          have hwmem : w ∈ s.watermarks := List.mem_of_find?_eq_some hf
          have hwp : w.id ≠ id := by simpa using List.find?_some hf
          refine ⟨w, ?_, rfl⟩
          simp [deleteWatermark, List.mem_filter, hwmem, hwp]
    · have hi2 : s.selectedId = some i := by
        simpa [deleteWatermark, hsel] using hi
      obtain ⟨w, hw, hwid⟩ := hs i hi2
      have hwne : w.id ≠ id := fun hcontra => hsel (by rw [hi2, ← hwid, hcontra])
      refine ⟨w, ?_, hwid⟩
      simp [deleteWatermark, List.mem_filter, hw, hwne]

/-- The initial session satisfies the selection invariant. -/
theorem selInv_initial : SelInv initialState := by
  intro id hid
  have hid2 : "1" = id := by simpa [initialState] using hid
  subst hid2
  exact ⟨defaultWatermark, by simp [initialState], rfl⟩

/-- The initial session has pairwise distinct ids. -/
theorem nodupIds_initial : NodupIds initialState := by
  show ((initialState.watermarks.map fun w => w.id)).Nodup
  decide

/-- Each store operation preserves distinctness of ids, provided generated ids
are fresh. -/
theorem stepFresh_preserves_nodupIds {s t : SessionState} (hs : NodupIds s)
    (hst : StepFresh s t) : NodupIds t := by
  cases hst with
  | add newId h =>
    have hids : ((addWatermark newId s).watermarks.map fun w => w.id)
        = (s.watermarks.map fun w => w.id) ++ [newId] := by
      simp [addWatermark, newWatermark]
    show ((addWatermark newId s).watermarks.map fun w => w.id).Nodup
    rw [hids]
    refine hs.append (List.nodup_singleton _) ?_
    intro a ha hb
    rw [List.mem_singleton] at hb
    obtain ⟨w, hw, hwid⟩ := List.mem_map.mp ha
    exact h w hw (by rw [hwid, hb])
  | select id =>
    exact hs
  | update u =>
    rcases updateSelectedWatermark_eq u s with heq | ⟨sid, hsel, hne, heq⟩
    · rw [heq]
      exact hs
    · show ((updateSelectedWatermark u s).watermarks.map fun w => w.id).Nodup
      rw [heq]
      show ((s.watermarks.map fun w =>
          if w.id = sid then applySpread w u else w).map fun w => w.id).Nodup
      rw [ids_map_update]
      exact hs
  | remove id =>
    show (((s.watermarks.filter fun w => w.id ≠ id).map fun w => w.id)).Nodup
    exact List.Nodup.sublist (List.Sublist.map _ (List.filter_sublist _)) hs

/-! ### Claim theorems -/

/-- Claim C1: for left-edge named anchors the compositor computes
`x = padding + textWidth/2` and for right-edge ones
`x = width - padding - textWidth/2`, with `padding = fontSize`; top anchors
sit at `y = padding` and bottom anchors at `y = height - padding`; in
particular, for an 800×600 image and watermark
`{text:"A", position:"bottom-right", fontSize:40}` the anchor point is
`x = 800 - 40 - measuredWidth("A")/2` and `y = 560`. -/
theorem drawCanvas_edge_anchors :
    ∀ (measure : ℚ → String → ℚ) (cw ch : ℚ) (wm : Watermark),
      ((wm.position = Position.topLeft ∨ wm.position = Position.bottomLeft) →
        (anchorPoint measure cw ch wm).1
          = wm.fontSize + measure wm.fontSize wm.text / 2) ∧
      ((wm.position = Position.topRight ∨ wm.position = Position.bottomRight) →
        (anchorPoint measure cw ch wm).1
          = cw - wm.fontSize - measure wm.fontSize wm.text / 2) ∧
      ((wm.position = Position.topLeft ∨ wm.position = Position.topRight) →
        (anchorPoint measure cw ch wm).2.1 = wm.fontSize) ∧
      ((wm.position = Position.bottomLeft ∨ wm.position = Position.bottomRight) →
        (anchorPoint measure cw ch wm).2.1 = ch - wm.fontSize) ∧
      (anchorPoint measure 800 600 scenarioWM).1 = 800 - 40 - measure 40 "A" / 2 ∧
      (anchorPoint measure 800 600 scenarioWM).2.1 = 560 := by
  intro measure cw ch wm
  refine ⟨?_, ?_, ?_, ?_, ?_, ?_⟩
  · rintro (h | h) <;> simp [anchorPoint, h]
  · rintro (h | h) <;> simp [anchorPoint, h]
  · rintro (h | h) <;> simp [anchorPoint, h]
  · rintro (h | h) <;> simp [anchorPoint, h]
  · simp [anchorPoint, scenarioWM]
  · norm_num [anchorPoint, scenarioWM]

/-- Witness for C1: the bottom-left rule evaluated at a concrete watermark
(`fontSize = 40`, text `"ab"`, measured width 80) gives `x = 40 + 80/2 = 80`. -/
theorem drawCanvas_edge_anchors_witness :
    (anchorPoint mMeas 800 600 wmBL).1 = 80 := by
  have h := (drawCanvas_edge_anchors mMeas 800 600 wmBL).1 (Or.inr rfl)
  have hl : ("ab".length : ℕ) = 2 := rfl
  rw [h]
  norm_num [mMeas, wmBL, hl]

/-- Claim C2: each watermark's draw state is scoped to its own draw call — the
loop hands back the context it started from, every paint call is produced from
that same starting context (so each watermark paints in the untransformed
coordinate space extended only by its own translate/rotate), and each call's
alpha is exactly its own watermark's opacity, never a product of others. -/
theorem drawAll_scoped :
    ∀ (measure : ℚ → String → ℚ) (cw ch : ℚ) (c : Ctx) (wms : List Watermark),
      (drawAll measure cw ch wms c).1 = c ∧
      (drawAll measure cw ch wms c).2
        = wms.map (fun wm => (drawWatermark measure cw ch c wm).2) ∧
      ∀ wm ∈ wms,
        ((drawWatermark measure cw ch c wm).2).alpha = wm.opacity ∧
        ((drawWatermark measure cw ch c wm).2).transform
          = c.props.transform ++
            [XformOp.translate (anchorPoint measure cw ch wm).1
              (anchorPoint measure cw ch wm).2.1,
             XformOp.rotate wm.rotation] :=
  fun measure cw ch c wms =>
    ⟨drawAll_fst measure cw ch wms c, drawAll_snd measure cw ch wms c,
     fun wm _ =>
       ⟨drawWatermark_alpha measure cw ch c wm,
        drawWatermark_transform measure cw ch c wm⟩⟩

/-- Witness for C2: the default watermark drawn from the fresh context paints
at exactly its own opacity. -/
theorem drawAll_scoped_witness :
    ((drawWatermark mMeas 800 600 freshCtx defaultWatermark).2).alpha
      = defaultWatermark.opacity :=
  (((drawAll_scoped mMeas 800 600 freshCtx [defaultWatermark]).2.2) defaultWatermark
    (by simp)).1

/-- Claim C7: the mapper corrects for CSS scaling by the per-axis factor
`internalSize / displayedSize` applied to display-relative pointer
coordinates; on a 400×300-displayed canvas backing an 800×600 bitmap, the
display-relative pointer (200,150) yields internal coordinates (400,300) and
percentages (50,50). -/
theorem getCanvasCoordinates_scale :
    ∀ (cw ch : ℚ) (rect : RectGeom) (cx cy : ℚ),
      getCanvasCoordinates cw ch rect cx cy
        = ((cx - rect.left) * (cw / rect.width), (cy - rect.top) * (ch / rect.height)) ∧
      getCanvasCoordinates 800 600 rectHalf 200 150 = (400, 300) ∧
      handleMovePercent 800 600 rectHalf 200 150 = (50, 50) := by
  intro cw ch rect cx cy
  refine ⟨rfl, ?_, ?_⟩
  · norm_num [getCanvasCoordinates, rectHalf]
  · norm_num [handleMovePercent, getCanvasCoordinates, rectHalf, Prod.ext_iff,
      min_def, max_def]

/-- Claim C8: with no image loaded, a render pass produces nothing (and, being
a total function of its inputs, raises nothing and changes nothing); with an
image loaded and an empty watermark collection, the output is exactly the
plain source image. -/
theorem drawCanvas_noop_empty :
    ∀ (measure : ℚ → String → ℚ) (wms : List Watermark) (img : SourceImage),
      drawCanvas measure none wms = none ∧
      drawCanvas measure (some img) [] = some (plainRender img) :=
  fun _ _ _ => ⟨rfl, rfl⟩

/-- Claim C3 counterexample: deleting the selected entry `"a"` from the
collection `[wA, wBlank]` leaves the non-empty collection `[wBlank]`, yet the
selection becomes none rather than the first remaining entry's id — the
`|| null` coercion treats the remaining empty-string id as falsy. -/
theorem deleteWatermark_counterexample :
    (deleteWatermark "a" sBlankFirst).watermarks = [wBlank] ∧
    (deleteWatermark "a" sBlankFirst).selectedId = none ∧
    sBlankFirst.selectedId = some "a" := by
  exact ⟨rfl, rfl, rfl⟩

/-- Claim C3 (amended): `remove(id)` deletes the matching entries; when the
deleted id was the selection, the new selection is the first remaining entry's
id via the `|| null` coercion — so none when nothing remains, and also none
when the first remaining entry's id is the empty string; an unselected delete
leaves the selection alone.  The two-item scenario whose other entry is `"x"`
ends selected at `"x"`. -/
theorem deleteWatermark_spec :
    ∀ (s : SessionState) (id : String),
      ((deleteWatermark id s).watermarks = s.watermarks.filter fun w => w.id ≠ id) ∧
      (s.selectedId = some id →
        (deleteWatermark id s).selectedId
          = idOrNull ((deleteWatermark id s).watermarks.head?)) ∧
      (s.selectedId ≠ some id → (deleteWatermark id s).selectedId = s.selectedId) ∧
      (deleteWatermark "s" twoItemState).selectedId = some "x" := by
  intro s id
  refine ⟨rfl, ?_, ?_, rfl⟩
  · intro hsel
    show (if s.selectedId = some id then idOrNull (s.watermarks.find? fun w => w.id ≠ id)
        else s.selectedId)
      = idOrNull ((s.watermarks.filter fun w => w.id ≠ id).head?)
    rw [if_pos hsel, find?_eq_head?_filter]
  · intro hsel
    show (if s.selectedId = some id then idOrNull (s.watermarks.find? fun w => w.id ≠ id)
        else s.selectedId)
      = s.selectedId
    rw [if_neg hsel]

/-- Witness for C3 (amended): deleting the selected `"s"` from the two-item
collection moves the selection to the id of the head of the remaining
collection. -/
theorem deleteWatermark_spec_witness :
    (deleteWatermark "s" twoItemState).selectedId
      = idOrNull ((deleteWatermark "s" twoItemState).watermarks.head?) :=
  ((deleteWatermark_spec twoItemState "s").2.1) rfl

/-- Claim C4: in every reachable session state a non-none selection refers to
the id of an entry present in the collection, and every store operation —
add, select, update, and removal of the selected entry included — preserves
this invariant. -/
theorem selection_invariant :
    (∀ s, Reachable s → SelInv s) ∧
    (∀ s t, SelInv s → Step s t → SelInv t) := by
  constructor
  · intro s h
    induction h with
    | init => exact selInv_initial
    | step hr hst ih => exact step_preserves_selInv ih hst
  · intro s t hs hst
    exact step_preserves_selInv hs hst

/-- Witness for C4: the invariant at the initial state produces the present
entry behind the initial selection `"1"`. -/
theorem selection_invariant_witness :
    ∃ w ∈ initialState.watermarks, w.id = "1" :=
  (selection_invariant.1 initialState Reachable.init) "1" rfl

/-- Claim C5 counterexample: the id generator is `Math.random`-based with no
collision check, so the same id can be produced twice (for example
`Math.random() = 0.5` prints as `"0.i"` in base 36, yielding the id `"i"`);
after two such adds the reachable state carries duplicate ids. -/
theorem addWatermark_duplicate_counterexample :
    Reachable (addWatermark "i" (addWatermark "i" initialState)) ∧
    ((addWatermark "i" (addWatermark "i" initialState)).watermarks.map
        fun w => w.id) = ["1", "i", "i"] ∧
    ¬ ((addWatermark "i" (addWatermark "i" initialState)).watermarks.map
        fun w => w.id).Nodup := by
  refine ⟨?_, rfl, ?_⟩
  · exact Reachable.step (Reachable.step Reachable.init (Step.add "i"))
      (Step.add "i")
  · decide

/-- Claim C5 (amended): `add` appends an entry carrying the generated id and
selects it; since the code never checks the generated id against the existing
ones, distinct ids are guaranteed only when every generated id is fresh, and
under that assumption every reachable state has pairwise distinct ids. -/
theorem nodup_ids_under_fresh :
    (∀ s, ReachableFresh s → NodupIds s) ∧
    (∀ (newId : String) (s : SessionState),
      (addWatermark newId s).selectedId = some newId ∧
      ((addWatermark newId s).watermarks.map fun w => w.id)
        = (s.watermarks.map fun w => w.id) ++ [newId]) := by
  constructor
  · intro s h
    induction h with
    | init => exact nodupIds_initial
    | step hr hst ih => exact stepFresh_preserves_nodupIds ih hst
  · intro newId s
    exact ⟨rfl, by simp [addWatermark, newWatermark]⟩

/-- Witness for C5 (amended): under fresh id generation the initial state has
pairwise distinct ids. -/
theorem nodup_ids_under_fresh_witness : NodupIds initialState :=
  nodup_ids_under_fresh.1 initialState ReachableFresh.init

/-- Claim C6 counterexample: a pointer left of the canvas rectangle but
vertically inside it maps to (0, 50) — only the exceeded axis is pinned —
which is none of the four corners the claim allows for out-of-rect
pointers. -/
theorem handleMove_corner_counterexample :
    ((-10 : ℚ) < rectUnit.left) ∧
    handleMovePercent 100 100 rectUnit (-10) 50 = (0, 50) ∧
    handleMovePercent 100 100 rectUnit (-10) 50 ≠ (0, 0) ∧
    handleMovePercent 100 100 rectUnit (-10) 50 ≠ (100, 0) ∧
    handleMovePercent 100 100 rectUnit (-10) 50 ≠ (0, 100) ∧
    handleMovePercent 100 100 rectUnit (-10) 50 ≠ (100, 100) := by
  have hmain : handleMovePercent 100 100 rectUnit (-10) 50 = (0, 50) := by
    norm_num [handleMovePercent, getCanvasCoordinates, rectUnit, min_def, max_def,
      Prod.ext_iff]
  refine ⟨by norm_num [rectUnit], hmain, ?_, ?_, ?_, ?_⟩ <;>
    rw [hmain] <;> norm_num [Prod.ext_iff]

/-- Claim C6 (amended): the mapper always returns percentages in `[0, 100]` on
both axes; a pointer beyond an edge of the bounding rectangle has that axis
pinned to the corresponding bound — so a pointer beyond two edges maps to the
matching corner among (0,0), (100,0), (0,100), (100,100), while a pointer
beyond a single edge pins only that axis. -/
theorem handleMove_clamps :
    ∀ (cw ch : ℚ) (rect : RectGeom) (cx cy : ℚ),
      (0 ≤ (handleMovePercent cw ch rect cx cy).1 ∧
        (handleMovePercent cw ch rect cx cy).1 ≤ 100 ∧
        0 ≤ (handleMovePercent cw ch rect cx cy).2 ∧
        (handleMovePercent cw ch rect cx cy).2 ≤ 100) ∧
      (0 < rect.width → 0 < cw → cx ≤ rect.left →
        (handleMovePercent cw ch rect cx cy).1 = 0) ∧
      (0 < rect.width → 0 < cw → rect.left + rect.width ≤ cx →
        (handleMovePercent cw ch rect cx cy).1 = 100) ∧
      (0 < rect.height → 0 < ch → cy ≤ rect.top →
        (handleMovePercent cw ch rect cx cy).2 = 0) ∧
      (0 < rect.height → 0 < ch → rect.top + rect.height ≤ cy →
        (handleMovePercent cw ch rect cx cy).2 = 100) := by
  intro cw ch rect cx cy
  refine ⟨⟨(clamp_bounds _).1, (clamp_bounds _).2, (clamp_bounds _).1,
    (clamp_bounds _).2⟩, ?_, ?_, ?_, ?_⟩
  · intro hw hcw hx
    show max 0 (min 100 ((cx - rect.left) * (cw / rect.width) / cw * 100)) = 0
    apply clamp_eq_zero
    have h1 : cx - rect.left ≤ 0 := sub_nonpos.mpr hx
    have h2 : (0:ℚ) ≤ cw / rect.width := (div_pos hcw hw).le
    have h3 : (cx - rect.left) * (cw / rect.width) ≤ 0 :=
      mul_nonpos_of_nonpos_of_nonneg h1 h2
    have h4 : (cx - rect.left) * (cw / rect.width) / cw ≤ 0 :=
      div_nonpos_of_nonpos_of_nonneg h3 hcw.le
    exact mul_nonpos_of_nonpos_of_nonneg h4 (by norm_num)
  · intro hw hcw hx
    show max 0 (min 100 ((cx - rect.left) * (cw / rect.width) / cw * 100)) = 100
    apply clamp_eq_hundred
    have h1 : rect.width ≤ cx - rect.left := by linarith
    have h2 : rect.width * (cw / rect.width) ≤ (cx - rect.left) * (cw / rect.width) :=
      mul_le_mul_of_nonneg_right h1 (div_pos hcw hw).le
    have h0 : rect.width ≠ 0 := ne_of_gt hw
    have h3 : rect.width * (cw / rect.width) = cw := by
      field_simp
    have h4 : cw ≤ (cx - rect.left) * (cw / rect.width) := by
      linarith
    have h5 : (1:ℚ) ≤ (cx - rect.left) * (cw / rect.width) / cw :=
      (one_le_div hcw).mpr h4
    linarith
  · intro hh hch hy
    show max 0 (min 100 ((cy - rect.top) * (ch / rect.height) / ch * 100)) = 0
    apply clamp_eq_zero
    have h1 : cy - rect.top ≤ 0 := sub_nonpos.mpr hy
    have h2 : (0:ℚ) ≤ ch / rect.height := (div_pos hch hh).le
    have h3 : (cy - rect.top) * (ch / rect.height) ≤ 0 :=
      mul_nonpos_of_nonpos_of_nonneg h1 h2
    have h4 : (cy - rect.top) * (ch / rect.height) / ch ≤ 0 :=
      div_nonpos_of_nonpos_of_nonneg h3 hch.le
    exact mul_nonpos_of_nonpos_of_nonneg h4 (by norm_num)
  · intro hh hch hy
    show max 0 (min 100 ((cy - rect.top) * (ch / rect.height) / ch * 100)) = 100
    apply clamp_eq_hundred
    have h1 : rect.height ≤ cy - rect.top := by linarith
    have h2 : rect.height * (ch / rect.height) ≤ (cy - rect.top) * (ch / rect.height) :=
      mul_le_mul_of_nonneg_right h1 (div_pos hch hh).le
    have h0 : rect.height ≠ 0 := ne_of_gt hh
    have h3 : rect.height * (ch / rect.height) = ch := by
      field_simp
    have h4 : ch ≤ (cy - rect.top) * (ch / rect.height) := by
      linarith
    have h5 : (1:ℚ) ≤ (cy - rect.top) * (ch / rect.height) / ch :=
      (one_le_div hch).mpr h4
    linarith

/-- Witness for C6 (amended): a pointer beyond both the left and top edges is
pinned to the corner (0, 0). -/
theorem handleMove_clamps_witness :
    (handleMovePercent 100 100 rectUnit (-5) (-7)).1 = 0 ∧
    (handleMovePercent 100 100 rectUnit (-5) (-7)).2 = 0 :=
  ⟨(handleMove_clamps 100 100 rectUnit (-5) (-7)).2.1 (by norm_num [rectUnit])
      (by norm_num) (by norm_num [rectUnit]),
   (handleMove_clamps 100 100 rectUnit (-5) (-7)).2.2.2.1 (by norm_num [rectUnit])
      (by norm_num) (by norm_num [rectUnit])⟩

/-- Claim C9 counterexample: with the empty-string id selected and a matching
entry present, `update` silently no-ops — the `!selectedId` guard treats `""`
as no selection — instead of merging the text update into the matching
entry. -/
theorem updateSelectedWatermark_counterexample :
    updateSelectedWatermark updText sBlankSel = sBlankSel ∧
    sBlankSel.selectedId = some wBlank.id ∧
    wBlank ∈ sBlankSel.watermarks ∧
    wBlank.text ≠ "b" ∧
    updText.text = some "b" := by
  refine ⟨rfl, rfl, ?_, ?_, rfl⟩
  · simp [sBlankSel]
  · decide

/-- Claim C9 (amended): `update` merges the partial record into every entry
matching the selected id — present fields override, absent fields persist, and
the id never changes — leaves non-matching entries and the selection itself
untouched, and is a silent no-op when the selection is none, when it is the
empty string (JS falsiness), or when no entry matches it. -/
theorem updateSelectedWatermark_spec :
    ∀ (s : SessionState) (u : PartialWatermark),
      (truthyId s.selectedId = false → updateSelectedWatermark u s = s) ∧
      (∀ sid, s.selectedId = some sid → sid ≠ "" →
        (updateSelectedWatermark u s).selectedId = some sid ∧
        (updateSelectedWatermark u s).watermarks
          = s.watermarks.map (fun w => if w.id = sid then applySpread w u else w) ∧
        ((∀ w ∈ s.watermarks, w.id ≠ sid) → updateSelectedWatermark u s = s)) ∧
      (∀ w : Watermark,
        (applySpread w u).id = w.id ∧
        (applySpread w u).text = u.text.getD w.text ∧
        (applySpread w u).fontSize = u.fontSize.getD w.fontSize ∧
        (applySpread w u).color = u.color.getD w.color ∧
        (applySpread w u).opacity = u.opacity.getD w.opacity ∧
        (applySpread w u).position = u.position.getD w.position ∧
        (applySpread w u).customX = u.customX.getD w.customX ∧
        (applySpread w u).customY = u.customY.getD w.customY ∧
        (applySpread w u).rotation = u.rotation.getD w.rotation) := by
  intro s u
  refine ⟨?_, ?_, fun w => ⟨rfl, rfl, rfl, rfl, rfl, rfl, rfl, rfl, rfl⟩⟩
  · intro hfalse
    rcases hsel : s.selectedId with _ | sid
    · simp [updateSelectedWatermark, hsel]
    · rw [hsel] at hfalse
      by_cases he : sid = ""
      · simp [updateSelectedWatermark, hsel, he]
      · exfalso
        simp [truthyId, he] at hfalse
  · intro sid hsel hne
    refine ⟨?_, ?_, ?_⟩
    · simp [updateSelectedWatermark, hsel, hne]
    · simp [updateSelectedWatermark, hsel, hne]
    · intro hnomatch
      have hmap : (s.watermarks.map fun w => if w.id = sid then applySpread w u else w)
          = s.watermarks := map_update_eq_self s.watermarks sid u hnomatch
      have h2 : updateSelectedWatermark u s
          = { s with watermarks :=
                s.watermarks.map fun w => if w.id = sid then applySpread w u else w } := by
        simp [updateSelectedWatermark, hsel, hne]
      rw [h2, hmap]

/-- Witness for C9 (amended): updating the selected `"a"` keeps the selection
pointing at `"a"`. -/
theorem updateSelectedWatermark_spec_witness :
    (updateSelectedWatermark updText sSelA).selectedId = some "a" :=
  (((updateSelectedWatermark_spec sSelA updText).2.1) "a" rfl (by decide)).1

/-- Claim C10 counterexample: with an image loaded, the drag flag idle, and a
non-none selection — referring to the present entry whose id is the empty
string — pointer-down does nothing at all: the falsy-`""` guard bails out, so
the dragging state is never entered and no position is forced to custom. -/
theorem handleStart_counterexample :
    uBlankSel.image ≠ none ∧
    uBlankSel.session.selectedId ≠ none ∧
    uBlankSel.isDragging = false ∧
    wBlank ∈ uBlankSel.session.watermarks ∧
    uBlankSel.session.selectedId = some wBlank.id ∧
    handleStart 800 600 rectFull 100 100 uBlankSel = uBlankSel ∧
    (handleStart 800 600 rectFull 100 100 uBlankSel).isDragging = false := by
  refine ⟨?_, ?_, rfl, ?_, rfl, rfl, rfl⟩
  · simp [uBlankSel]
  · simp [uBlankSel, sBlankSel]
  · simp [uBlankSel, sBlankSel]

/-- Claim C10 (amended): with an image loaded, the drag flag idle, and a
truthy selection (non-none and not the empty string, which the guard treats
as no selection), pointer-down enters the dragging state and changes the
store by exactly the position-to-custom update of the selected watermark —
every entry's `customX`/`customY` survive unchanged, because the pointer-move
invoked inside the handler still observes the idle dragging flag and bails
out. -/
theorem handleStart_spec :
    ∀ (cw ch : ℚ) (rect : RectGeom) (cx cy : ℚ) (u : UIState),
      u.image ≠ none → truthyId u.session.selectedId = true → u.isDragging = false →
      (handleStart cw ch rect cx cy u).isDragging = true ∧
      (handleStart cw ch rect cx cy u).session
        = updateSelectedWatermark { position := some Position.custom } u.session ∧
      ((handleStart cw ch rect cx cy u).session.watermarks.map
          fun w => (w.customX, w.customY))
        = u.session.watermarks.map fun w => (w.customX, w.customY) := by
  intro cw ch rect cx cy u himg htruthy hidle
  have hguard : ¬(u.image = none ∨ truthyId u.session.selectedId = false) := by
    rintro (h | h)
    · exact himg h
    · rw [htruthy] at h
      cases h
  have hmove : handleMove cw ch rect cx cy
      { u with session := updateSelectedWatermark { position := some Position.custom } u.session }
      = { u with session := updateSelectedWatermark { position := some Position.custom } u.session } := by
    simp only [handleMove]
    exact if_pos (Or.inl hidle)
  have hres : handleStart cw ch rect cx cy u
      = { u with
            session := updateSelectedWatermark { position := some Position.custom } u.session,
            isDragging := true } := by
    simp only [handleStart, if_neg hguard]
    rw [hmove]
  obtain ⟨sid, hsel, hne⟩ := (truthyId_eq_true_iff u.session.selectedId).mp htruthy
  have hupd : updateSelectedWatermark { position := some Position.custom } u.session
      = { u.session with
            watermarks := u.session.watermarks.map (fun w =>
              if w.id = sid then applySpread w { position := some Position.custom } else w) } := by
    simp [updateSelectedWatermark, hsel, hne]
  refine ⟨by rw [hres], by rw [hres], ?_⟩
  rw [hres]
  show ((updateSelectedWatermark { position := some Position.custom } u.session).watermarks.map
      fun w => (w.customX, w.customY)) = _
  rw [hupd]
  exact customs_map_update_position u.session.watermarks sid

/-- Witness for C10 (amended): pointer-down on the session selecting `"a"`
enters dragging and applies exactly the position update. -/
theorem handleStart_spec_witness :
    (handleStart 800 600 rectFull 5 5 uSelA).isDragging = true ∧
    (handleStart 800 600 rectFull 5 5 uSelA).session
      = updateSelectedWatermark { position := some Position.custom } uSelA.session :=
  ⟨(handleStart_spec 800 600 rectFull 5 5 uSelA (by simp [uSelA]) rfl rfl).1,
   (handleStart_spec 800 600 rectFull 5 5 uSelA (by simp [uSelA]) rfl rfl).2.1⟩

end WatermarkApp
